import Mathlib

/-!
# Verification of the place-card synchronization engine

Shallow embedding of the sync core of the `helper_tg_bot_for_managers`
repository: the relational record model (`src/core/model.py`), the
recursive property extractor (`src/core/db_functions.py`), the Notion
field mapper, coordinate resolver and the two scheduled synchronization
passes (`src/models/notion.py`), together with theorems settling the
stated properties of that code.

Python values flowing through the property bags are dynamically typed;
they are embedded as the tagged variant `NotionValue`, with `.null`
playing the role of Python `None` (which the source code conflates with
"key absent", exactly as `search_by_key` does). Nested lists and dicts
are given as the mutually inductive `NVItems` / `NVEntries` so that
equality and structural recursion are available.
-/

namespace PlaceSync

mutual

/-- A dynamically-typed Python/JSON value as it appears in Notion
property bags and in the in-memory ORM attributes. `null` is Python
`None`. Numbers are embedded as integers (no claim depends on
non-integral numerics). -/
inductive NotionValue where
  | str (s : String)
  | num (n : Int)
  | bool (b : Bool)
  | null
  | list (items : NVItems)
  | dict (entries : NVEntries)
deriving DecidableEq

/-- A Python list of values. -/
inductive NVItems where
  | nil
  | cons (v : NotionValue) (rest : NVItems)
deriving DecidableEq

/-- The item list of a Python dict: ordered key/value pairs. -/
inductive NVEntries where
  | nil
  | cons (k : String) (v : NotionValue) (rest : NVEntries)
deriving DecidableEq

end

/-- Build an `NVItems` from a Lean list (construction convenience). -/
def nvList : List NotionValue → NVItems
  | [] => .nil
  | v :: rest => .cons v (nvList rest)

/-- Build an `NVEntries` from a Lean association list. -/
def nvDict : List (String × NotionValue) → NVEntries
  | [] => .nil
  | (k, v) :: rest => .cons k v (nvDict rest)

/-- Emptiness of a Python list. -/
def NVItems.isEmpty : NVItems → Bool
  | .nil => true
  | .cons _ _ => false

/-- Emptiness of a Python dict. -/
def NVEntries.isEmpty : NVEntries → Bool
  | .nil => true
  | .cons _ _ _ => false

/-- Python truthiness (`if value:`) for the embedded value type:
`None`, `""`, `0`, `False`, `[]` and `{}` are falsy. -/
def pyTruthy : NotionValue → Bool
  | .str s => !s.data.isEmpty
  | .num n => decide (n ≠ 0)
  | .bool b => b
  | .null => false
  | .list items => !items.isEmpty
  | .dict entries => !entries.isEmpty

mutual

/-- The recursive collector inside `search_by_key`
(`src/core/db_functions.py:87-100`): depth-first over nested dicts and
lists, appending every value bound to the target key, in document
order. -/
def searchCollect (key : String) : NotionValue → List NotionValue
  | .dict entries => searchEntries key entries
  | .list items => searchItems key items
  | _ => []

/-- Walk of a dict's items: record `v` when the key matches, and recurse
into `v` when it is itself a dict or a list (the `isinstance` guard of
the source). -/
def searchEntries (key : String) : NVEntries → List NotionValue
  | .nil => []
  | .cons k v rest =>
      (if k = key then [v] else []) ++
      (match v with
       | .dict _ => searchCollect key v
       | .list _ => searchCollect key v
       | _ => []) ++
      searchEntries key rest

/-- Walk of a list's items. -/
def searchItems (key : String) : NVItems → List NotionValue
  | .nil => []
  | .cons v rest => searchCollect key v ++ searchItems key rest

end

/-- Embedding of `search_by_key(dictionary, key)`: first collected value, or Python
`None` when nothing was found (the source's
`results[0] if results else None`). -/
def search_by_key (v : NotionValue) (key : String) : NotionValue :=
  match searchCollect key v with
  | [] => .null
  | x :: _ => x

mutual

/-- Python `repr` of an embedded value (used by `str` on containers).
String escaping inside reprs is not modelled; no claim evaluates it on
strings needing escapes. -/
def pyRepr : NotionValue → String
  | .str s => "'" ++ s ++ "'"
  | .num n => toString n
  | .bool b => if b then "True" else "False"
  | .null => "None"
  | .list items => "[" ++ pyReprItems items ++ "]"
  | .dict entries => "\x7b" ++ pyReprEntries entries ++ "\x7d"

/-- Comma-joined reprs of list items. -/
def pyReprItems : NVItems → String
  | .nil => ""
  | .cons v .nil => pyRepr v
  | .cons v rest => pyRepr v ++ ", " ++ pyReprItems rest

/-- Comma-joined reprs of dict items. -/
def pyReprEntries : NVEntries → String
  | .nil => ""
  | .cons k v .nil => "'" ++ k ++ "': " ++ pyRepr v
  | .cons k v rest => "'" ++ k ++ "': " ++ pyRepr v ++ ", " ++ pyReprEntries rest

end

/-- Python `str(value)`: the string itself for a string, its repr
otherwise. -/
def pyStr : NotionValue → String
  | .str s => s
  | v => pyRepr v

/-- The ORM record `ModelPlaceCard` (`src/core/model.py`). The string
columns hold dynamically-typed attribute values in memory (the pull
pass assigns raw `search_by_key` results, including `None`), so they
are embedded as `NotionValue`; the two flags are `Boolean` columns.
The defaults are the column defaults (`default=""`, `default=False`)
as they stand after a commit. -/
structure ModelPlaceCard where
  Name : NotionValue := .str ""
  ID : NotionValue := .str ""
  id_page : NotionValue := .str ""
  type : NotionValue := .str ""
  photo : NotionValue := .str ""
  location : NotionValue := .str ""
  google_map : NotionValue := .str ""
  phone_number : NotionValue := .str ""
  whatsapp : NotionValue := .str ""
  hours_of_operation : NotionValue := .str ""
  coordinates : NotionValue := .str ""
  data_manager : NotionValue := .str ""
  manager_phone_number : NotionValue := .str ""
  is_new : Bool := false
  is_updated : Bool := false
deriving DecidableEq

/-- A record as `ModelPlaceCard()` constructs it inside the pull pass:
a fresh ORM object whose attributes are all unset (`None`) before any
assignment; the Boolean flag columns receive their `False` defaults
when the row is flushed, and no pull-pass code path assigns them. -/
def freshCard : ModelPlaceCard where
  Name := .null
  ID := .null
  id_page := .null
  type := .null
  photo := .null
  location := .null
  google_map := .null
  phone_number := .null
  whatsapp := .null
  hours_of_operation := .null
  coordinates := .null
  data_manager := .null
  manager_phone_number := .null
  is_new := false
  is_updated := false

/-- Embedding of `ModelPlaceCard.to_dict` (`src/core/model.py:39-66`): emit each
truthy field under its Notion column name, in source order. Note the
source guards the `Location` entry with `if self.manager_phone_number:`
(not `if self.location:`). -/
def to_dict (c : ModelPlaceCard) : List (String × NotionValue) :=
  (if pyTruthy c.Name then [("Name", c.Name)] else []) ++
  (if pyTruthy c.type then [("Type", c.type)] else []) ++
  (if pyTruthy c.photo then [("Photo Google Drive", c.photo)] else []) ++
  (if pyTruthy c.google_map then [("Google Map", c.google_map)] else []) ++
  (if pyTruthy c.phone_number then [("Phone Number", c.phone_number)] else []) ++
  (if pyTruthy c.whatsapp then [("WhatsApp Number", c.whatsapp)] else []) ++
  (if pyTruthy c.hours_of_operation then [("Hours of Operation", c.hours_of_operation)] else []) ++
  (if pyTruthy c.manager_phone_number then [("Owner / Manager", c.manager_phone_number)] else []) ++
  (if pyTruthy c.manager_phone_number then [("Location", c.location)] else [])

/-- Lookup of `entries[k]` for the `value["name"]` subscript in
`format_property`'s dict branch. -/
def NVEntries.lookup : NVEntries → String → Option NotionValue
  | .nil, _ => none
  | .cons k v rest, key => if k = key then some v else rest.lookup key

/-- A Notion `rich_text` property wrapping a text content value. -/
def richTextProp (content : NotionValue) : NotionValue :=
  .dict (nvDict [("rich_text", .list (nvList
    [.dict (nvDict [("type", .str "text"), ("text", .dict (nvDict [("content", content)]))])]))])

/-- Embedding of `Notion.format_property` (`src/models/notion.py:102-143`): the
per-column-name formatting table with the type-directed fallback.
Returns `none` exactly when the Python code raises: the dict fallback
subscripts `value["name"]`, a `KeyError` when the key is missing. -/
def format_property (column_name : String) (value : NotionValue) : Option NotionValue :=
  if column_name = "Name" then
    some (.dict (nvDict [("title", .list (nvList
      [.dict (nvDict [("type", .str "text"), ("text", .dict (nvDict [("content", value)]))])]))]))
  else if column_name = "Photo Google Drive" || column_name = "Google Map" then
    some (.dict (nvDict [("url", value)]))
  else if column_name = "Type" then
    some (.dict (nvDict [("select", .dict (nvDict [("name", value)]))]))
  else if column_name = "Phone Number" || column_name = "WhatsApp Number"
      || column_name = "Hours of Operation" || column_name = "Owner / Manager" then
    some (richTextProp (.str (pyStr value)))
  else
    match value with
    | .str s => some (richTextProp (.str s))
    | .list items => some (.dict (nvDict
        [("multi_select", .list (formatMultiSelect items))]))
    | .bool b => some (.dict (nvDict [("checkbox", .bool b)]))
    | .num n => some (.dict (nvDict [("number", .num n)]))
    | .dict entries =>
        (entries.lookup "name").map fun nv => .dict (nvDict [("select", .dict (nvDict [("name", nv)]))])
    | .null => some (richTextProp (.str (pyStr .null)))
where
  /-- The comprehension `[\x7b"name": val\x7d for val in value]`. -/
  formatMultiSelect : NVItems → NVItems
    | .nil => .nil
    | .cons v rest => .cons (.dict (nvDict [("name", v)])) (formatMultiSelect rest)

/-- A Python exception kind, for code paths that can raise. -/
inductive PyErr where
  | valueError
  | indexError
  | keyError
  | typeError
  | attributeError
deriving DecidableEq

/-- Python `str.split(sep)` for a one-character separator: always at
least one (possibly empty) piece. -/
def splitChar (sep : Char) : List Char → List (List Char)
  | [] => [[]]
  | c :: rest =>
      let r := splitChar sep rest
      if c = sep then [] :: r
      else
        match r with
        | [] => [[c]]
        | h :: t => (c :: h) :: t

/-- Does the first list start with the second? -/
def listStartsWith : List Char → List Char → Bool
  | _, [] => true
  | [], _ :: _ => false
  | a :: as, b :: bs => a = b && listStartsWith as bs

/-- Split a char list around the first occurrence of `needle`, when
present. -/
def splitOnceSub (needle : List Char) : List Char → Option (List Char × List Char)
  | [] => if needle.isEmpty then some ([], []) else none
  | c :: rest =>
      if listStartsWith (c :: rest) needle then some ([], (c :: rest).drop needle.length)
      else
        match splitOnceSub needle rest with
        | some (pre, post) => some (c :: pre, post)
        | none => none

/-- The path component that `urlparse(url).path` yields: the fragment
and query are cut off, and for a URL with a scheme the path starts at
the first slash after the authority (empty when there is none); a
string with no scheme separator is all path. -/
def urlPathChars (url : List Char) : List Char :=
  let core := (url.takeWhile (· ≠ '#')).takeWhile (· ≠ '?')
  match splitOnceSub "://".data core with
  | none => core
  | some (_, after) => after.dropWhile (· ≠ '/')

/-- Consume a maximal run of ASCII digits. -/
def eatDigits : List Char → List Char
  | c :: r => if c.isDigit then eatDigits r else c :: r
  | [] => []

/-- Consume at least one digit, then a maximal run of digits. -/
def eatDigits1 : List Char → Option (List Char)
  | c :: r => if c.isDigit then some (eatDigits r) else none
  | [] => none

/-- Validity of an exponent suffix after the `e`/`E`: optional sign
then one or more digits ending the token. -/
def expOk (r : List Char) : Bool :=
  let r2 := match r with
    | '+' :: x => x
    | '-' :: x => x
    | _ => r
  match eatDigits1 r2 with
  | some [] => true
  | _ => false

/-- Whether Python `float(token)` succeeds, for sign/decimal/exponent
literals: `[+-]? (digits [. digits*] | . digits+) ([eE][+-]?digits+)?`.
Surrounding whitespace, `inf`/`nan` and digit-group underscores, which
Python also accepts, are not modelled; no claim evaluates such tokens. -/
def pyFloatValid (s : List Char) : Bool :=
  let l := match s with
    | '+' :: r => r
    | '-' :: r => r
    | _ => s
  let mant : Option (List Char) :=
    match eatDigits1 l with
    | some r =>
        match r with
        | '.' :: rr => some (eatDigits rr)
        | _ => some r
    | none =>
        match l with
        | '.' :: rr => eatDigits1 rr
        | _ => none
  match mant with
  | some [] => true
  | some ('e' :: r) => expOk r
  | some ('E' :: r) => expOk r
  | some _ => false
  | none => false

/-- Exactly six digits, returning the remainder. -/
def sixDigits : List Char → Option (List Char)
  | c1 :: c2 :: c3 :: c4 :: c5 :: c6 :: r =>
      if c1.isDigit && c2.isDigit && c3.isDigit && c4.isDigit && c5.isDigit && c6.isDigit
      then some r else none
  | _ => none

/-- A dot followed by exactly six digits. -/
def dotSix : List Char → Option (List Char)
  | '.' :: r => sixDigits r
  | _ => none

/-- One number of the source regex `-?\d\x7b1,2\x7d\.\d\x7b6\x7d`:
optional minus, one or two digits (greedy, with backtracking), a dot,
exactly six digits. Returns the remainder on success. -/
def numTok (l0 : List Char) : Option (List Char) :=
  let l := match l0 with
    | '-' :: r => r
    | _ => l0
  match l with
  | a :: rest =>
      if a.isDigit then
        match rest with
        | b :: rest2 =>
            if b.isDigit then
              match dotSix rest2 with
              | some r => some r
              | none => dotSix rest
            else dotSix rest
        | [] => none
      else none
  | [] => none

/-- Prefix match of the source pattern
`(-?\d\x7b1,2\x7d\.\d\x7b6\x7d),(-?\d\x7b1,2\x7d\.\d\x7b6\x7d)`
(the `re.match` in `extract_coordinates_google_maps`). -/
def matchNumPair (part : List Char) : Bool :=
  match numTok part with
  | some (',' :: r) => (numTok r).isSome
  | _ => false

/-- The candidate coordinate-token list one loop iteration of
`extract_coordinates_google_maps` builds for a path segment:
`part.split("@")[1].split(",")[:2]` for a segment containing `@`, else
`part.split(",")` when the segment matches the number-pair pattern,
else the empty list. -/
def candTokens (part : List Char) : List (List Char) :=
  if part.contains '@' then
    (splitChar ',' ((splitChar '@' part).getD 1 [])).take 2
  else if matchNumPair part then splitChar ',' part
  else []

/-- Evaluation of `float(coordinates[0]), float(coordinates[1])` on the
candidate token list. The first conversion runs first, so an invalid
first token raises `ValueError` before a missing second token can raise
`IndexError`. Floats are represented by their source tokens: no claim
depends on their numeric value, only on whether conversion succeeds. -/
def floatPair (coords : List (List Char)) : Except PyErr (List Char × List Char) :=
  match coords with
  | [] => .error .indexError
  | c0 :: rest =>
      if pyFloatValid c0 then
        match rest with
        | [] => .error .indexError
        | c1 :: _ => if pyFloatValid c1 then .ok (c0, c1) else .error .valueError
      else .error .valueError

/-- Loop of `extract_coordinates_google_maps` over the path segments:
first segment with a non-empty candidate list wins; its tokens are
converted (possibly raising); no match at all yields `None`. -/
def extractLoop : List (List Char) → Except PyErr (Option (String × String))
  | [] => .ok none
  | part :: rest =>
      let coords := candTokens part
      if coords.isEmpty then extractLoop rest
      else (floatPair coords).map fun p => some (String.mk p.1, String.mk p.2)

/-- Embedding of `Notion.extract_coordinates_google_maps`
(`src/models/notion.py:213-238`). -/
def extract_coordinates_google_maps (url : String) : Except PyErr (Option (String × String)) :=
  extractLoop (splitChar '/' (urlPathChars url.data))

/-- Embedding of `Notion.get_coordinates_from_short_url`
(`src/models/notion.py:240-251`): `env` stands for the
redirect-following `get_full_url` network call, mapping the short URL
to its expanded form. -/
def get_coordinates_from_short_url (env : String → String) (short_url : String) :
    Except PyErr (Option (String × String)) :=
  extract_coordinates_google_maps (env short_url)

/-- Embedding of `Notion.get_coordinates_from_link`
(`src/models/notion.py:253-268`): `https://` links shorter than 70
characters go through the redirect resolver, longer ones are parsed
directly, anything else yields `None`. -/
def get_coordinates_from_link (env : String → String) (url : String) :
    Except PyErr (Option (String × String)) :=
  if listStartsWith url.data "https://".data then
    if url.data.length < 70 then get_coordinates_from_short_url env url
    else extract_coordinates_google_maps url
  else .ok none

/-- Python slicing `s[1:-2]`, as applied to `str(item_coordinates)` at
both coordinate-storing sites of the pull pass. -/
def strSlice1m2 (s : String) : String :=
  String.mk ((s.data.drop 1).take (s.data.length - 3))

/-- Python `str((lat, lon))` for a pair of floats, given the decimal
rendering of each float: `"(lat, lon)"` with the comma-space separator
of tuple reprs. The coordinate floats of this program come from tokens
such as `"9.748917"` whose shortest round-trip repr is the token
itself, which is how every theorem below instantiates it. -/
def pyFloatTupleStr (lat lon : String) : String :=
  "(" ++ lat ++ ", " ++ lon ++ ")"

/-- Python subscript `value[key]`: `KeyError` on a missing dict key,
`TypeError` when the value is not a dict (string-key subscripts on
non-dicts raise `TypeError`). -/
def pyGet (v : NotionValue) (key : String) : Except PyErr NotionValue :=
  match v with
  | .dict entries =>
      match entries.lookup key with
      | some x => .ok x
      | none => .error .keyError
  | _ => .error .typeError

/-- Call of `get_coordinates_from_link` on an ORM attribute value: a
string is resolved as a link; any non-string (in particular `None`,
when `google_map` was never assigned) raises `AttributeError` at
`url.startswith`. -/
def coordFromVal (env : String → String) (v : NotionValue) :
    Except PyErr (Option (String × String)) :=
  match v with
  | .str s => get_coordinates_from_link env s
  | _ => .error .attributeError

/-- The `Google Map` branch of the pull pass
(`src/models/notion.py:346-369`): extract the url, and when it differs
from the stored attribute, store it if truthy, resolve coordinates from
the (possibly just-updated) stored link — an unguarded call whose
exceptions escape — and either store the sliced coordinate text or
write the extracted url (possibly `None`) back into `google_map`. -/
def googleMapBranch (env : String → String) (c : ModelPlaceCard) (v : NotionValue) :
    Except PyErr ModelPlaceCard :=
  let google_map_link := search_by_key v "url"
  if c.google_map ≠ google_map_link then
    let c1 := if pyTruthy google_map_link then { c with google_map := google_map_link } else c
    match coordFromVal env c1.google_map with
    | .error e => .error e
    | .ok (some (lat, lon)) =>
        .ok { c1 with coordinates := .str (strSlice1m2 (pyFloatTupleStr lat lon)) }
    | .ok none => .ok { c1 with google_map := google_map_link }
  else .ok c

/-- The `Location` branch of the pull pass
(`src/models/notion.py:338-344`): subscripts `value["select"]` (and
`["name"]`), storing `"Not specified"` for an empty selection. -/
def locationBranch (c : ModelPlaceCard) (v : NotionValue) : Except PyErr ModelPlaceCard :=
  match pyGet v "select" with
  | .error e => .error e
  | .ok sel =>
      if pyTruthy sel then
        match pyGet sel "name" with
        | .error e => .error e
        | .ok nm => .ok { c with location := nm }
      else .ok { c with location := .str "Not specified" }

/-- The four leading assignment branches of the key dispatch of
`_scheduled_task_from_Notion` (source lines 324-336). -/
def applyPropHead (c : ModelPlaceCard) (key : String) (v : NotionValue) : ModelPlaceCard :=
  let c := if key = "Name" then { c with Name := search_by_key v "plain_text" } else c
  let c := if key = "Type" then { c with type := search_by_key v "name" } else c
  let c := if key = "ID" then { c with ID := search_by_key v "number" } else c
  if key = "Photo Google Drive" then { c with photo := search_by_key v "url" } else c

/-- The four trailing plain-text branches of the key dispatch (source
lines 371-389). -/
def applyPropTail (c : ModelPlaceCard) (key : String) (v : NotionValue) : ModelPlaceCard :=
  let c := if key = "Phone Number" then { c with phone_number := search_by_key v "plain_text" } else c
  let c := if key = "WhatsApp Number" then { c with whatsapp := search_by_key v "plain_text" } else c
  let c := if key = "Hours of Operation" then
      { c with hours_of_operation := search_by_key v "plain_text" } else c
  if key = "Owner / Manager" then
      { c with manager_phone_number := search_by_key v "plain_text" } else c

/-- One property of one external row, as the inner key dispatch of
`_scheduled_task_from_Notion` (`src/models/notion.py:322-389`) applies
it to the working record: the four leading assignment branches, the
two branches that can raise, then the four trailing assignment
branches. Each key matches at most one branch. -/
def applyProp (env : String → String) (c : ModelPlaceCard) (key : String) (v : NotionValue) :
    Except PyErr ModelPlaceCard :=
  let c := applyPropHead c key v
  match (if key = "Location" then locationBranch c v else .ok c) with
  | .error e => .error e
  | .ok c =>
  match (if key = "Google Map" then googleMapBranch env c v else .ok c) with
  | .error e => .error e
  | .ok c => .ok (applyPropTail c key v)

/-- Fold of the property dict of one row through `applyProp`. -/
def processProps (env : String → String) (c : ModelPlaceCard) :
    List (String × NotionValue) → Except PyErr ModelPlaceCard
  | [] => .ok c
  | (k, v) :: rest =>
      match applyProp env c k v with
      | .error e => .error e
      | .ok c2 => processProps env c2 rest

/-- The coordinate fallback block (`src/models/notion.py:390-411`),
which the source runs after processing each top-level key of the row
dict: when `coordinates` is falsy and `google_map` truthy, try to
resolve the stored link — this call is wrapped in `try/except`, so a
raise is swallowed — and store either the sliced coordinate text or
the sentinel `"Bad url"`. -/
def coordFallback (env : String → String) (c : ModelPlaceCard) : ModelPlaceCard :=
  if !pyTruthy c.coordinates && pyTruthy c.google_map then
    let item : Option (String × String) :=
      match coordFromVal env c.google_map with
      | .ok r => r
      | .error _ => none
    match item with
    | some (lat, lon) => { c with coordinates := .str (strSlice1m2 (pyFloatTupleStr lat lon)) }
    | none => { c with coordinates := .str "Bad url" }
  else c

/-- Processing of one external row against a working record: the
top-level loop over the row dict's keys visits `"id"` (assigning
`id_page`) and then `"properties"`, running the coordinate fallback
block after each key. -/
def processRow (env : String → String) (c : ModelPlaceCard) (rowId : String)
    (props : List (String × NotionValue)) : Except PyErr ModelPlaceCard :=
  let c1 := { c with id_page := .str rowId }
  let c2 := coordFallback env c1
  match processProps env c2 props with
  | .error e => .error e
  | .ok c3 => .ok (coordFallback env c3)

/-- An external row: its Notion page id and its property dict. -/
structure NotionRow where
  id : String
  props : List (String × NotionValue)
deriving DecidableEq

/-- Index of the first record matching
`filter_by(id_page=rowId, is_updated=False)`. -/
def findIdxNotUpdated (db : List ModelPlaceCard) (rowId : String) : Option Nat :=
  db.findIdx? fun c => c.id_page = .str rowId && c.is_updated = false

/-- Truth of `filter_by(id_page=rowId, is_updated=True).first()`:
whether some local record with that page id carries an unsynced edit. -/
def hasUpdated (db : List ModelPlaceCard) (rowId : String) : Bool :=
  db.any fun c => c.id_page = .str rowId && c.is_updated = true

/-- One row of the pull pass (`src/models/notion.py:297-413`): skip the
row when a locally-updated record matches its id; otherwise overwrite
the first non-updated match in place, or process a fresh record and
append it (the session's autoflush makes it visible to later rows of
the same pass). -/
def pullStep (env : String → String) (db : List ModelPlaceCard) (row : NotionRow) :
    Except PyErr (List ModelPlaceCard) :=
  if hasUpdated db row.id then .ok db
  else
    match findIdxNotUpdated db row.id with
    | some i =>
        match processRow env (db.getD i freshCard) row.id row.props with
        | .error e => .error e
        | .ok c => .ok (db.set i c)
    | none =>
        match processRow env freshCard row.id row.props with
        | .error e => .error e
        | .ok c => .ok (db ++ [c])

/-- Fold of the pull pass over rows. -/
def pullLoop (env : String → String) (db : List ModelPlaceCard) :
    List NotionRow → Except PyErr (List ModelPlaceCard)
  | [] => .ok db
  | row :: rest =>
      match pullStep env db row with
      | .error e => .error e
      | .ok db1 => pullLoop env db1 rest

/-- Embedding of `Notion._scheduled_task_from_Notion`
(`src/models/notion.py:270-421`): process the external rows in reverse
listing order and commit once at the end; any exception mid-pass rolls
the session back, so the local table is left exactly as it was. -/
def pullPass (env : String → String) (db : List ModelPlaceCard) (rows : List NotionRow) :
    List ModelPlaceCard :=
  match pullLoop env db rows.reverse with
  | .ok db2 => db2
  | .error _ => db

/-- Dirty-flag selection of the push pass:
`is_new == True | is_updated == True`. -/
def isDirty (c : ModelPlaceCard) : Bool :=
  c.is_new || c.is_updated

/-- Whether the record at position `i` of the local table is dirty. -/
def isDirtyAt (db : List ModelPlaceCard) (i : Nat) : Bool :=
  match db.get? i with
  | some c => isDirty c
  | none => false

/-- Positions of the dirty records, in table order (the order the
filtered query returns them). -/
def dirtyIdx (db : List ModelPlaceCard) : List Nat :=
  (List.range db.length).filter (isDirtyAt db)

/-- The property formatting step of `update_or_insert_row`
(`src/models/notion.py:74-76`): format every `to_dict` entry; `none`
when `format_property` raises on some entry. -/
def rowProps (c : ModelPlaceCard) : Option (List (String × NotionValue)) :=
  (to_dict c).mapM fun kv => (format_property kv.1 kv.2).map fun p => (kv.1, p)

/-- The existence check of `update_or_insert_row`
(`src/models/notion.py:71-72`): whether some external row's string id
equals the given raw `row_id` attribute value. -/
def tableHasId (table : List NotionRow) (rowId : NotionValue) : Bool :=
  table.any fun r => NotionValue.str r.id = rowId

/-- The external-table effect of a successful `update_or_insert_row`:
update the matching row in place when one exists, else append a
created row. -/
def upsertTable (table : List NotionRow) (freshId : String) (rowId : NotionValue)
    (props : List (String × NotionValue)) : List NotionRow :=
  if tableHasId table rowId then
    table.map fun r => if NotionValue.str r.id = rowId then { r with props := props } else r
  else table ++ [{ id := freshId, props := props }]

/-- Outcome of one `update_or_insert_row` call as the push pass
observes it: an exception, a response that is not a dict (the
`isinstance(response, Dict)` check fails), or a normal dict response. -/
inductive UpsertOutcome where
  | raise
  | badResponse
  | okResponse
deriving DecidableEq

/-- Result of a push pass: the local table after the single
end-of-pass commit, the external table (external calls are not
transactional, so they survive a failed pass), and the db positions of
the records for which an upsert was started, in order. -/
structure PushResult where
  db : List ModelPlaceCard
  table : List NotionRow
  attempted : List Nat
deriving DecidableEq

/-- State threaded through the push loop: external table, positions
whose flags were cleared in the session, positions attempted, and
whether the loop ran to completion (reaching `session.commit()`). -/
structure PushLoopState where
  table : List NotionRow
  cleared : List Nat
  attempted : List Nat
  committed : Bool
deriving DecidableEq

/-- The `for row in rows:` loop of `_scheduled_task_to_Notion`
(`src/models/notion.py:181-189`) over the dirty positions. `env k` is
the outcome of the `k`-th external call of this pass and `fresh k` the
page id Notion assigns when that call creates a row. A raised
exception — from the call itself, or a `KeyError` from
`format_property` — escapes the loop into the pass-level handler, so
the loop stops without reaching the commit. A non-dict response only
logs, leaving that record's flags set. A dict response clears both
flags on the session object. -/
def runDirty (env : Nat → UpsertOutcome) (fresh : Nat → String) (db : List ModelPlaceCard) :
    List Nat → Nat → List NotionRow → List Nat → List Nat → PushLoopState
  | [], _, table, cleared, attempted =>
      { table := table, cleared := cleared, attempted := attempted, committed := true }
  | i :: rest, k, table, cleared, attempted =>
      let c := db.getD i freshCard
      match rowProps c with
      | none =>
          { table := table, cleared := cleared, attempted := attempted ++ [i], committed := false }
      | some props =>
          match env k with
          | .raise =>
              { table := table, cleared := cleared, attempted := attempted ++ [i],
                committed := false }
          | .badResponse => runDirty env fresh db rest (k + 1) table cleared (attempted ++ [i])
          | .okResponse =>
              runDirty env fresh db rest (k + 1) (upsertTable table (fresh k) c.id_page props)
                (cleared ++ [i]) (attempted ++ [i])

/-- Flag reset on a successful response
(`row.is_new = False; row.is_updated = False`). Note that `id_page` is
left untouched. -/
def clearFlags (c : ModelPlaceCard) : ModelPlaceCard :=
  { c with is_new := false, is_updated := false }

/-- The end-of-pass `session.commit()`: persist the flag resets made on
the session objects at the cleared positions. -/
def commitCleared (cleared : List Nat) (db : List ModelPlaceCard) : List ModelPlaceCard :=
  cleared.foldl (fun acc i => acc.set i (clearFlags (acc.getD i freshCard))) db

/-- Embedding of `Notion._scheduled_task_to_Notion`
(`src/models/notion.py:160-198`): select the dirty records, push each
in turn, and commit the accumulated flag resets once at the end. When
an exception escapes the loop the pass-level `except` only logs: the
commit never runs, so the local table is unchanged, while the external
calls already made stand. The pass itself never raises. -/
def pushPass (env : Nat → UpsertOutcome) (fresh : Nat → String) (db : List ModelPlaceCard)
    (table : List NotionRow) : PushResult :=
  let st := runDirty env fresh db (dirtyIdx db) 0 table [] []
  if st.committed then
    { db := commitCleared st.cleared db, table := st.table, attempted := st.attempted }
  else
    { db := db, table := st.table, attempted := st.attempted }

/-- The environment of a pass in which the external service behaves:
every call returns a dict response. -/
def allOk : Nat → UpsertOutcome := fun _ => .okResponse

/-- The record a front-end lookup-miss creates
(`src/bot/telegram_bot.py:289-294`, and likewise
`find_company_by_name` in `src/core/db_functions.py:185-191`):
`ModelPlaceCard(Name=company_name)` followed by `session.commit()` and
`session.refresh(company)`, so every unassigned column carries its
declared default — in particular `is_new` and `is_updated` carry
`default=False` from `src/core/model.py:36-37`. -/
def createCompanyByLookupMiss (name : String) : ModelPlaceCard :=
  { Name := .str name }

/-- Agreement of the two dirty flags between two record states. -/
def sameFlags (c c2 : ModelPlaceCard) : Prop :=
  c2.is_new = c.is_new ∧ c2.is_updated = c.is_updated

/-- Cleanliness of a record relative to the pre-pass local table
`db0`: its `is_new` flag is off, and if its `is_updated` flag is on it
is an untouched member of `db0`. -/
def cleanWrt (db0 : List ModelPlaceCard) (c : ModelPlaceCard) : Prop :=
  c.is_new = false ∧ (c.is_updated = true → c ∈ db0)

/-! ## Concrete instances used by the theorems below -/

/-- A fresh-page-id supply for concrete push-pass runs. -/
def freshPages : Nat → String := fun k => "page-" ++ toString k

/-- An identity redirect environment: the expanded form of a short link
is the link itself. -/
def envId : String → String := fun s => s

/-- A record with a populated `location` but an empty
`manager_phone_number`. -/
def cardLocNoManager : ModelPlaceCard :=
  { Name := .str "Cafe X", location := .str "Beach" }

/-- A local table holding one never-pushed record: `is_new` set,
`id_page` empty. -/
def dbOneNew : List ModelPlaceCard :=
  [{ Name := .str "Cafe X", is_new := true }]

/-- A local table holding two dirty records. -/
def dbTwoDirty : List ModelPlaceCard :=
  [{ Name := .str "Cafe X", is_new := true },
   { Name := .str "Cafe Y", id_page := .str "page-y", is_updated := true }]

/-- An environment whose first external call raises and whose later
calls succeed. -/
def envRaiseFirst : Nat → UpsertOutcome :=
  fun k => if k = 0 then .raise else .okResponse

/-- An environment whose first external call returns a malformed
(non-dict) response and whose later calls succeed. -/
def envBadFirst : Nat → UpsertOutcome :=
  fun k => if k = 0 then .badResponse else .okResponse

/-- An external row carrying a resolvable Google Maps link (the spec's
own test vector). -/
def rowMapLink : NotionRow :=
  { id := "row-map"
  , props := [("Google Map", .dict (nvDict
      [("url", .str "https://maps.google.com/maps/@9.748917,-83.753428,15z")]))] }

/-- An expanded (70+ character) maps URL whose `@` segment is not
followed by two numeric comma-separated tokens. -/
def badAtUrl : String :=
  "https://www.google.com/maps/place/Very+Long+Place+Name+Padding+More/@abc,def"

/-- A local record with a stored `Name`, joined to external row
`"row-5"`, clean flags. -/
def cardOldName : ModelPlaceCard :=
  { Name := .str "Old Name", id_page := .str "row-5" }

/-- An external row for `"row-5"` whose `Name` property contains no
`plain_text` leaf anywhere. -/
def rowNoPlainText : NotionRow :=
  { id := "row-5", props := [("Name", .dict (nvDict [("title", .list .nil)]))] }

/-- A locally-edited record joined to external row `"row-7"`. -/
def cardLocalEdit : ModelPlaceCard :=
  { Name := .str "Local Name", id_page := .str "row-7", is_updated := true }

/-- An external row for `"row-7"` carrying a different remote `Name`. -/
def rowRemoteName : NotionRow :=
  { id := "row-7"
  , props := [("Name", .dict (nvDict [("title", .list (nvList
      [.dict (nvDict [("plain_text", .str "Remote Name")])]))]))] }

/-! ## Theorems -/

/-- C9. The front-end lookup-miss creation path builds
`ModelPlaceCard(Name=company_name)` without touching `is_new`, whose
column default is `False`: the newly created record has `is_new =
false`, contradicting the claim that creation sets it true (no code
path in the repository ever assigns `is_new = True`). -/
theorem front_end_creation_leaves_is_new_false :
    (createCompanyByLookupMiss "Cafe X").is_new = false ∧
    isDirty (createCompanyByLookupMiss "Cafe X") = false := by
  constructor <;> rfl

/-- C8. The relational-to-document translation drops the `Location`
property for a record whose `location` is populated but whose
`manager_phone_number` is empty: `to_dict` guards the `Location` entry
with `if self.manager_phone_number:` instead of `if self.location:`,
so the claimed "Location whenever location is non-empty" rule fails. -/
theorem to_dict_location_gated_on_manager :
    pyTruthy cardLocNoManager.location = true ∧
    (to_dict cardLocNoManager).lookup "Location" = none ∧
    (to_dict cardLocNoManager) = [("Name", .str "Cafe X")] := by
  refine ⟨rfl, rfl, rfl⟩

/-- C2. A successful push of a record with empty `id_page` creates an
external row (the table grows to one row, with the service-assigned id
`"page-0"`) and clears `is_new`, but never assigns the created row's
id back to the record: `id_page` is still the empty string after the
push, contradicting the claim that it is set on first successful
push. -/
theorem push_pass_leaves_id_page_empty :
    ((pushPass allOk freshPages dbOneNew []).db.get? 0).map ModelPlaceCard.id_page
      = some (.str "") ∧
    ((pushPass allOk freshPages dbOneNew []).db.get? 0).map ModelPlaceCard.is_new
      = some false ∧
    (pushPass allOk freshPages dbOneNew []).table.map NotionRow.id = ["page-0"] := by
  refine ⟨rfl, rfl, rfl⟩

/-- C6. On the spec's own resolvable link, the pull pass stores
`str((9.748917, -83.753428))[1:-2]`, i.e. the text
`"9.748917, -83.75342"`: the separator is comma-space and the final
digit of the longitude is cut off by the `[1:-2]` slice, not the
claimed `"9.748917,-83.753428"`. -/
theorem pull_pass_coordinates_slice_drops_char :
    ((pullPass envId [] [rowMapLink]).get? 0).map ModelPlaceCard.coordinates
      = some (.str "9.748917, -83.75342") ∧
    (.str "9.748917, -83.75342" : NotionValue) ≠ .str "9.748917,-83.753428" := by
  exact ⟨rfl, by decide⟩

/-- C7. The coordinate resolver raises past its boundary on a
malformed expanded link: for the 70+ character URL whose `@` segment
is followed by `abc,def`, `float("abc")` raises `ValueError` inside
`extract_coordinates_google_maps`, and `get_coordinates_from_link`
propagates it instead of returning an explicit no-result. -/
theorem resolver_raises_on_malformed_at_segment :
    get_coordinates_from_link envId badAtUrl = .error .valueError ∧
    70 ≤ badAtUrl.data.length := by
  exact ⟨rfl, by decide⟩

/-- A found not-updated index points at a record matching the filter:
its `id_page` is the row id and its `is_updated` flag is off. -/
theorem findIdxNotUpdated_spec {db : List ModelPlaceCard} {rowId : String} {j : Nat}
    (h : findIdxNotUpdated db rowId = some j) :
    ∃ hj : j < db.length, db[j].id_page = .str rowId ∧ db[j].is_updated = false := by
  rw [findIdxNotUpdated, List.findIdx?_eq_some_iff_getElem] at h
  obtain ⟨hj, hpred, -⟩ := h
  simp only [Bool.and_eq_true, decide_eq_true_eq] at hpred
  exact ⟨hj, hpred⟩

/-- One pull step leaves every locally-updated record untouched. -/
theorem pullStep_preserves_updated {env : String → String} {db : List ModelPlaceCard}
    {row : NotionRow} {i : Nat} {c : ModelPlaceCard} (hg : db.get? i = some c)
    (hu : c.is_updated = true) {db2 : List ModelPlaceCard}
    (hstep : pullStep env db row = .ok db2) : db2.get? i = some c := by
  rw [pullStep] at hstep
  split at hstep
  · cases hstep
    exact hg
  · split at hstep
    case _ j hF =>
      split at hstep
      · cases hstep
      case _ c2 hPR =>
        cases hstep
        obtain ⟨hj, -, hupd⟩ := findIdxNotUpdated_spec hF
        have hne : j ≠ i := by
          intro hji
          subst hji
          rw [List.get?_eq_getElem?, List.getElem?_eq_getElem hj] at hg
          cases hg
          rw [hu] at hupd
          cases hupd
        rw [List.get?_eq_getElem?] at hg ⊢
        rw [List.getElem?_set_ne hne]
        exact hg
    case _ hF =>
      split at hstep
      · cases hstep
      case _ c2 hPR =>
        cases hstep
        rw [List.get?_eq_getElem?] at hg ⊢
        rw [List.getElem?_append_left (List.getElem?_eq_some.mp hg).1]
        exact hg

/-- The pull loop leaves every locally-updated record untouched. -/
theorem pullLoop_preserves_updated {env : String → String} {i : Nat} {c : ModelPlaceCard}
    (hu : c.is_updated = true) :
    ∀ (rows : List NotionRow) (db : List ModelPlaceCard), db.get? i = some c →
    ∀ db2, pullLoop env db rows = .ok db2 → db2.get? i = some c := by
  intro rows
  induction rows with
  | nil =>
      intro db hg db2 hloop
      cases hloop
      exact hg
  | cons row rest ih =>
      intro db hg db2 hloop
      rw [pullLoop] at hloop
      cases hstep : pullStep env db row with
      | error e => rw [hstep] at hloop; cases hloop
      | ok db1 =>
          rw [hstep] at hloop
          exact ih db1 (pullStep_preserves_updated hg hu hstep) db2 hloop

/-- C4. A pull pass skips every local record whose `is_updated` flag is
true: no field of such a record is overwritten, whatever the external
rows contain — the record emerges from the pass exactly as it went in. -/
theorem pull_pass_skips_updated_records :
    ∀ (env : String → String) (db : List ModelPlaceCard) (rows : List NotionRow)
      (i : Nat) (c : ModelPlaceCard),
    db.get? i = some c → c.is_updated = true →
    (pullPass env db rows).get? i = some c := by
  intro env db rows i c hg hu
  rw [pullPass]
  cases hloop : pullLoop env db rows.reverse with
  | ok db2 => exact pullLoop_preserves_updated hu rows.reverse db hg db2 hloop
  | error e => exact hg

/-- Witness for C4: a locally-edited record joined to an external row
carrying a different remote name survives the pull pass unchanged. -/
theorem pull_pass_skips_updated_records_witness :
    (pullPass envId [cardLocalEdit] [rowRemoteName]).get? 0 = some cardLocalEdit :=
  pull_pass_skips_updated_records envId [cardLocalEdit] [rowRemoteName] 0 cardLocalEdit rfl rfl

/-- The location branch never touches the dirty flags. -/
theorem locationBranch_sameFlags {c : ModelPlaceCard} {v : NotionValue}
    {c2 : ModelPlaceCard} (h : locationBranch c v = .ok c2) : sameFlags c c2 := by
  rw [locationBranch] at h
  split at h
  · cases h
  · split at h
    · split at h
      · cases h
      · cases h
        exact ⟨rfl, rfl⟩
    · cases h
      exact ⟨rfl, rfl⟩

/-- The google-map branch never touches the dirty flags. -/
theorem googleMapBranch_sameFlags {env : String → String} {c : ModelPlaceCard}
    {v : NotionValue} {c2 : ModelPlaceCard} (h : googleMapBranch env c v = .ok c2) :
    sameFlags c c2 := by
  rw [googleMapBranch] at h
  split at h
  · split at h
    all_goals dsimp only at h
    all_goals split at h
    all_goals cases h
    all_goals exact ⟨rfl, rfl⟩
  · cases h
    exact ⟨rfl, rfl⟩

/-- The leading assignment branches never touch the dirty flags. -/
theorem applyPropHead_sameFlags {c : ModelPlaceCard} {key : String} {v : NotionValue} :
    sameFlags c (applyPropHead c key v) := by
  rw [applyPropHead]
  constructor <;>
  · by_cases h1 : key = "Name" <;> by_cases h2 : key = "Type" <;>
      by_cases h3 : key = "ID" <;> by_cases h4 : key = "Photo Google Drive" <;>
      simp [h1, h2, h3, h4]

/-- The trailing assignment branches never touch the dirty flags. -/
theorem applyPropTail_sameFlags {c : ModelPlaceCard} {key : String} {v : NotionValue} :
    sameFlags c (applyPropTail c key v) := by
  rw [applyPropTail]
  constructor <;>
  · by_cases h1 : key = "Phone Number" <;> by_cases h2 : key = "WhatsApp Number" <;>
      by_cases h3 : key = "Hours of Operation" <;> by_cases h4 : key = "Owner / Manager" <;>
      simp [h1, h2, h3, h4]

/-- Applying one external property never touches the dirty flags. -/
theorem applyProp_sameFlags {env : String → String} {c : ModelPlaceCard} {key : String}
    {v : NotionValue} {c2 : ModelPlaceCard} (h : applyProp env c key v = .ok c2) :
    sameFlags c c2 := by
  rw [applyProp] at h
  split at h
  · cases h
  case _ cl hl =>
    have hl2 : sameFlags c cl := by
      revert hl
      split
      · intro hl
        have h1 := locationBranch_sameFlags hl
        have h0 : sameFlags c (applyPropHead c key v) := applyPropHead_sameFlags
        exact ⟨h1.1.trans h0.1, h1.2.trans h0.2⟩
      · intro hl
        cases hl
        exact applyPropHead_sameFlags
    split at h
    · cases h
    case _ cg hgm =>
      have hg2 : sameFlags cl cg := by
        revert hgm
        split
        · exact fun hgm => googleMapBranch_sameFlags hgm
        · intro hgm
          cases hgm
          exact ⟨rfl, rfl⟩
      cases h
      have h3 : sameFlags cg (applyPropTail cg key v) := applyPropTail_sameFlags
      exact ⟨h3.1.trans (hg2.1.trans hl2.1), h3.2.trans (hg2.2.trans hl2.2)⟩

/-- Processing a whole property dict never touches the dirty flags. -/
theorem processProps_sameFlags {env : String → String} :
    ∀ {props : List (String × NotionValue)} {c c2 : ModelPlaceCard},
    processProps env c props = .ok c2 → sameFlags c c2 := by
  intro props
  induction props with
  | nil =>
      intro c c2 h
      cases h
      exact ⟨rfl, rfl⟩
  | cons kv rest ih =>
      intro c c2 h
      rw [processProps] at h
      split at h
      · cases h
      case _ c1 hap =>
        have h1 := applyProp_sameFlags hap
        have h2 := ih h
        exact ⟨h2.1.trans h1.1, h2.2.trans h1.2⟩

/-- The coordinate fallback block never touches the dirty flags. -/
theorem coordFallback_sameFlags {env : String → String} {c : ModelPlaceCard} :
    sameFlags c (coordFallback env c) := by
  rw [coordFallback]
  split
  · dsimp only
    split
    · exact ⟨rfl, rfl⟩
    · exact ⟨rfl, rfl⟩
  · exact ⟨rfl, rfl⟩

/-- Processing one external row never touches the dirty flags. -/
theorem processRow_sameFlags {env : String → String} {c : ModelPlaceCard} {rowId : String}
    {props : List (String × NotionValue)} {c2 : ModelPlaceCard}
    (h : processRow env c rowId props = .ok c2) : sameFlags c c2 := by
  rw [processRow] at h
  split at h
  · cases h
  case _ c3 hpp =>
    cases h
    have h1 : sameFlags c (coordFallback env { c with id_page := .str rowId }) :=
      coordFallback_sameFlags
    have h2 := processProps_sameFlags hpp
    have h3 : sameFlags c3 (coordFallback env c3) := coordFallback_sameFlags
    exact ⟨h3.1.trans (h2.1.trans h1.1), h3.2.trans (h2.2.trans h1.2)⟩

/-- One pull step preserves cleanliness relative to the pre-pass
table: records it creates or overwrites come out with `is_updated`
off and `is_new` inherited from a clean source. -/
theorem pullStep_clean {env : String → String} {db0 db : List ModelPlaceCard}
    {row : NotionRow} {db2 : List ModelPlaceCard} (hind : ∀ c ∈ db, cleanWrt db0 c)
    (h : pullStep env db row = .ok db2) : ∀ c2 ∈ db2, cleanWrt db0 c2 := by
  rw [pullStep] at h
  split at h
  · cases h
    exact hind
  · split at h
    case _ j hF =>
      split at h
      · cases h
      case _ c' hPR =>
        cases h
        intro c2 hc2
        rcases List.mem_or_eq_of_mem_set hc2 with hmem | heq
        · exact hind c2 hmem
        · subst heq
          obtain ⟨hj, -, hupd⟩ := findIdxNotUpdated_spec hF
          have hgd : db.getD j freshCard = db[j] := by
            rw [List.getD_eq_getElem?_getD, List.getElem?_eq_getElem hj]
            rfl
          have hflags := processRow_sameFlags hPR
          have hcj := hind db[j] (List.getElem_mem hj)
          refine ⟨?_, ?_⟩
          · rw [hflags.1, hgd]
            exact hcj.1
          · intro hu
            rw [hflags.2, hgd, hupd] at hu
            cases hu
    case _ hF =>
      split at h
      · cases h
      case _ c' hPR =>
        cases h
        intro c2 hc2
        rcases List.mem_append.mp hc2 with hmem | hmem
        · exact hind c2 hmem
        · have heq : c2 = c' := List.mem_singleton.mp hmem
          subst heq
          have hflags := processRow_sameFlags hPR
          refine ⟨?_, ?_⟩
          · rw [hflags.1]
            rfl
          · intro hu
            rw [hflags.2] at hu
            cases hu

/-- The pull loop preserves cleanliness relative to the pre-pass
table. -/
theorem pullLoop_clean {env : String → String} {db0 : List ModelPlaceCard} :
    ∀ (rows : List NotionRow) (db : List ModelPlaceCard), (∀ c ∈ db, cleanWrt db0 c) →
    ∀ db2, pullLoop env db rows = .ok db2 → ∀ c2 ∈ db2, cleanWrt db0 c2 := by
  intro rows
  induction rows with
  | nil =>
      intro db hind db2 h
      cases h
      exact hind
  | cons row rest ih =>
      intro db hind db2 h
      rw [pullLoop] at h
      split at h
      · cases h
      case _ db1 hstep =>
        exact ih db1 (pullStep_clean hind hstep) db2 h

/-- C10. On any local table in which no record carries `is_new` (no
code path of the repository ever sets that flag), a pull pass never
produces a dirty record: every record of the resulting table has
`is_new = false`, and any record with `is_updated = true` is an
untouched member of the original table — so nothing the pull pass
creates or overwrites becomes a push candidate. -/
theorem pull_pass_records_not_dirty :
    ∀ (env : String → String) (db : List ModelPlaceCard) (rows : List NotionRow),
    (∀ c ∈ db, c.is_new = false) →
    ∀ c2 ∈ pullPass env db rows, c2.is_new = false ∧ (c2.is_updated = true → c2 ∈ db) := by
  intro env db rows hnew
  have hind : ∀ c ∈ db, cleanWrt db c := fun c hc => ⟨hnew c hc, fun _ => hc⟩
  rw [pullPass]
  split
  case _ db2 hloop =>
    exact pullLoop_clean rows.reverse db hind db2 hloop
  case _ e hloop =>
    exact hind

/-- Witness for C10 at a concrete table and row list: the single
record the pass produces is not a push candidate. -/
theorem pull_pass_records_not_dirty_witness :
    (∀ c ∈ [cardOldName], c.is_new = false) ∧
    (((pullPass envId [cardOldName] [rowNoPlainText]).getD 0 freshCard).is_new = false ∧
      (((pullPass envId [cardOldName] [rowNoPlainText]).getD 0 freshCard).is_updated = true →
        (pullPass envId [cardOldName] [rowNoPlainText]).getD 0 freshCard ∈ [cardOldName])) :=
  ⟨by decide,
   pull_pass_records_not_dirty envId [cardOldName] [rowNoPlainText] (by decide)
     ((pullPass envId [cardOldName] [rowNoPlainText]).getD 0 freshCard) (by decide)⟩

/-- C5 (counterexample). A pull pass over a record holding
`Name = "Old Name"` and an external row whose `Name` property contains
no `plain_text` leaf does not leave the field untouched: it overwrites
the local `Name` with Python `None`. -/
theorem pull_pass_overwrites_with_none_cex :
    ((pullPass envId [cardOldName] [rowNoPlainText]).get? 0).map ModelPlaceCard.Name
      = some .null ∧
    cardOldName.Name = .str "Old Name" := by
  exact ⟨rfl, rfl⟩

/-- C5 (amended). When the searched leaf key is absent everywhere in a
property's subtree, `search_by_key` yields Python `None`; the pull pass
then assigns that `None` to the corresponding local field — for `Name`,
the phone numbers, hours and manager via `plain_text`, for `Type` via
`name`, for the photo via `url` — overwriting the previous value rather
than leaving the field untouched. -/
theorem pull_pass_absent_key_assigns_none :
    ∀ (env : String → String) (c : ModelPlaceCard) (v w u : NotionValue),
    searchCollect "plain_text" v = [] →
    searchCollect "name" w = [] →
    searchCollect "url" u = [] →
    search_by_key v "plain_text" = .null ∧
    applyProp env c "Name" v = .ok { c with Name := .null } ∧
    applyProp env c "Phone Number" v = .ok { c with phone_number := .null } ∧
    applyProp env c "WhatsApp Number" v = .ok { c with whatsapp := .null } ∧
    applyProp env c "Hours of Operation" v = .ok { c with hours_of_operation := .null } ∧
    applyProp env c "Owner / Manager" v = .ok { c with manager_phone_number := .null } ∧
    applyProp env c "Type" w = .ok { c with type := .null } ∧
    applyProp env c "Photo Google Drive" u = .ok { c with photo := .null } := by
  intro env c v w u hv hw hu
  have hsv : search_by_key v "plain_text" = .null := by simp [search_by_key, hv]
  have hsw : search_by_key w "name" = .null := by simp [search_by_key, hw]
  have hsu : search_by_key u "url" = .null := by simp [search_by_key, hu]
  refine ⟨hsv, ?_, ?_, ?_, ?_, ?_, ?_, ?_⟩
  · rw [show applyProp env c "Name" v
      = .ok { c with Name := search_by_key v "plain_text" } from rfl, hsv]
  · rw [show applyProp env c "Phone Number" v
      = .ok { c with phone_number := search_by_key v "plain_text" } from rfl, hsv]
  · rw [show applyProp env c "WhatsApp Number" v
      = .ok { c with whatsapp := search_by_key v "plain_text" } from rfl, hsv]
  · rw [show applyProp env c "Hours of Operation" v
      = .ok { c with hours_of_operation := search_by_key v "plain_text" } from rfl, hsv]
  · rw [show applyProp env c "Owner / Manager" v
      = .ok { c with manager_phone_number := search_by_key v "plain_text" } from rfl, hsv]
  · rw [show applyProp env c "Type" w
      = .ok { c with type := search_by_key w "name" } from rfl, hsw]
  · rw [show applyProp env c "Photo Google Drive" u
      = .ok { c with photo := search_by_key u "url" } from rfl, hsu]

/-- Witness for C5 (amended) at the concrete record and property of
the counterexample. -/
theorem pull_pass_absent_key_assigns_none_witness :
    searchCollect "plain_text" (.dict (nvDict [("title", .list .nil)])) = [] ∧
    applyProp envId cardOldName "Name" (.dict (nvDict [("title", .list .nil)]))
      = .ok { cardOldName with Name := .null } :=
  ⟨rfl, (pull_pass_absent_key_assigns_none envId cardOldName
      (.dict (nvDict [("title", .list .nil)])) (.dict (nvDict [])) (.dict (nvDict []))
      rfl rfl rfl).2.1⟩

/-- The dirty-position list never repeats a position. -/
theorem dirtyIdx_nodup (db : List ModelPlaceCard) : (dirtyIdx db).Nodup :=
  (List.nodup_range db.length).filter _

/-- Membership in the dirty-position list. -/
theorem mem_dirtyIdx {db : List ModelPlaceCard} {i : Nat} :
    i ∈ dirtyIdx db ↔ i < db.length ∧ isDirtyAt db i = true := by
  rw [dirtyIdx, List.mem_filter, List.mem_range]

/-- The commit of the flag resets leaves untouched positions alone. -/
theorem commitCleared_get?_not_mem :
    ∀ (cl : List Nat) (db : List ModelPlaceCard) (i : Nat), i ∉ cl →
    (commitCleared cl db).get? i = db.get? i := by
  intro cl
  induction cl with
  | nil => intro db i _; rfl
  | cons j rest ih =>
      intro db i hi
      rw [commitCleared, List.foldl_cons]
      have hji : j ≠ i := fun h => hi (h ▸ List.mem_cons_self j rest)
      have := ih (db.set j (clearFlags (db.getD j freshCard))) i
        (fun h => hi (List.mem_cons_of_mem j h))
      rw [commitCleared] at this
      rw [this, List.get?_eq_getElem?, List.get?_eq_getElem?, List.getElem?_set_ne hji]

/-- The commit of the flag resets clears the flags at each cleared
position (positions listed once). -/
theorem commitCleared_get?_mem :
    ∀ (cl : List Nat) (db : List ModelPlaceCard) (i : Nat), cl.Nodup → i ∈ cl →
    (commitCleared cl db).get? i = (db.get? i).map clearFlags := by
  intro cl
  induction cl with
  | nil => intro db i _ hi; cases hi
  | cons j rest ih =>
      intro db i hnd hi
      rw [commitCleared, List.foldl_cons]
      rcases List.mem_cons.mp hi with heq | hmem
      · subst heq
        have hnotin : i ∉ rest := (List.nodup_cons.mp hnd).1
        have hcc := commitCleared_get?_not_mem rest
          (db.set i (clearFlags (db.getD i freshCard))) i hnotin
        rw [commitCleared] at hcc
        rw [hcc]
        by_cases hlen : i < db.length
        · rw [List.get?_eq_getElem?, List.getElem?_set_self', List.getElem?_eq_getElem hlen]
          rw [List.get?_eq_getElem?, List.getElem?_eq_getElem hlen]
          have : db.getD i freshCard = db[i] := by
            rw [List.getD_eq_getElem?_getD, List.getElem?_eq_getElem hlen]
            rfl
          rw [this]
          rfl
        · have hnone : db.get? i = none := by
            rw [List.get?_eq_getElem?, List.getElem?_eq_none]
            omega
          have hnone2 : (db.set i (clearFlags (db.getD i freshCard))).get? i = none := by
            rw [List.get?_eq_getElem?, List.getElem?_eq_none]
            rw [List.length_set]
            omega
          rw [hnone2, hnone]
          rfl
      · have hji : j ≠ i := by
          intro h
          exact (List.nodup_cons.mp hnd).1 (h ▸ hmem)
        have := ih (db.set j (clearFlags (db.getD j freshCard))) i (List.nodup_cons.mp hnd).2 hmem
        rw [commitCleared] at this
        rw [this, List.get?_eq_getElem?, List.get?_eq_getElem?, List.getElem?_set_ne hji]

/-- The commit of the flag resets preserves the table length. -/
theorem commitCleared_length :
    ∀ (cl : List Nat) (db : List ModelPlaceCard),
    (commitCleared cl db).length = db.length := by
  intro cl
  induction cl with
  | nil => intro db; rfl
  | cons j rest ih =>
      intro db
      rw [commitCleared, List.foldl_cons]
      have := ih (db.set j (clearFlags (db.getD j freshCard)))
      rw [commitCleared] at this
      rw [this, List.length_set]

/-- An in-place update of one external row changes no row ids. -/
theorem tableHasId_map_update (table : List NotionRow) (rowId x : NotionValue)
    (props : List (String × NotionValue)) :
    tableHasId (table.map fun r => if NotionValue.str r.id = rowId then
      { r with props := props } else r) x = tableHasId table x := by
  induction table with
  | nil => rfl
  | cons r rest ih =>
      rw [List.map_cons, tableHasId, List.any_cons, tableHasId, List.any_cons]
      rw [tableHasId] at ih
      rw [ih]
      have : (if NotionValue.str r.id = rowId then { r with props := props } else r).id = r.id := by
        split <;> rfl
      rw [this, tableHasId]

/-- Appending a created row extends the id check by the fresh id. -/
theorem tableHasId_append (table : List NotionRow) (row : NotionRow) (x : NotionValue) :
    tableHasId (table ++ [row]) x
      = (tableHasId table x || decide (NotionValue.str row.id = x)) := by
  rw [tableHasId, List.any_append, tableHasId, List.any_cons, List.any_nil, Bool.or_false]

/-- When no step of the loop raises, every listed record is attempted,
the commit is reached, and any cleared position traces back either to
the initial accumulator or to a position whose call returned a dict. -/
theorem runDirty_no_raise {env : Nat → UpsertOutcome} {fresh : Nat → String}
    {db : List ModelPlaceCard} :
    ∀ (l : List Nat) (k : Nat) (table : List NotionRow) (cleared attempted : List Nat),
    (∀ p, p < l.length →
      rowProps (db.getD (l.getD p 0) freshCard) ≠ none ∧ env (k + p) ≠ .raise) →
    (runDirty env fresh db l k table cleared attempted).attempted = attempted ++ l ∧
    (runDirty env fresh db l k table cleared attempted).committed = true ∧
    (∀ i, i ∈ (runDirty env fresh db l k table cleared attempted).cleared →
      i ∈ cleared ∨ ∃ p, p < l.length ∧ l.getD p 0 = i ∧ env (k + p) = .okResponse) := by
  intro l
  induction l with
  | nil =>
      intro k table cleared attempted _
      exact ⟨by simp [runDirty], rfl, fun i hi => Or.inl hi⟩
  | cons j rest ih =>
      intro k table cleared attempted h
      have h0 := h 0 (Nat.succ_pos _)
      rw [Nat.add_zero] at h0
      have hrest : ∀ p, p < rest.length →
          rowProps (db.getD (rest.getD p 0) freshCard) ≠ none ∧ env (k + 1 + p) ≠ .raise := by
        intro p hp
        have := h (p + 1) (Nat.succ_lt_succ hp)
        rwa [show k + (p + 1) = k + 1 + p by omega] at this
      rw [runDirty]
      cases hrp : rowProps (db.getD j freshCard) with
      | none => exact absurd hrp h0.1
      | some props =>
          cases henv : env k with
          | raise => exact absurd henv h0.2
          | badResponse =>
              obtain ⟨ha, hc, hcl⟩ := ih (k + 1) table cleared (attempted ++ [j]) hrest
              refine ⟨by rw [ha, List.append_assoc]; rfl, hc, ?_⟩
              intro i hi
              rcases hcl i hi with hin | ⟨p, hp, hgd, hok⟩
              · exact Or.inl hin
              · exact Or.inr ⟨p + 1, Nat.succ_lt_succ hp, hgd,
                  by rwa [show k + (p + 1) = k + 1 + p by omega]⟩
          | okResponse =>
              obtain ⟨ha, hc, hcl⟩ := ih (k + 1)
                (upsertTable table (fresh k) (db.getD j freshCard).id_page props)
                (cleared ++ [j]) (attempted ++ [j]) hrest
              refine ⟨by rw [ha, List.append_assoc]; rfl, hc, ?_⟩
              intro i hi
              rcases hcl i hi with hin | ⟨p, hp, hgd, hok⟩
              · rcases List.mem_append.mp hin with hin2 | hin2
                · exact Or.inl hin2
                · exact Or.inr ⟨0, Nat.succ_pos _,
                    (List.mem_singleton.mp hin2).symm, by rwa [Nat.add_zero]⟩
              · exact Or.inr ⟨p + 1, Nat.succ_lt_succ hp, hgd,
                  by rwa [show k + (p + 1) = k + 1 + p by omega]⟩

/-- When the first raising step is at position `j0` of the remaining
list, the loop never reaches the commit and stops after attempting
exactly the positions up to and including `j0`. -/
theorem runDirty_raises_at {env : Nat → UpsertOutcome} {fresh : Nat → String}
    {db : List ModelPlaceCard} :
    ∀ (l : List Nat) (j0 k : Nat) (table : List NotionRow) (cleared attempted : List Nat),
    j0 < l.length →
    (∀ p, p < j0 →
      rowProps (db.getD (l.getD p 0) freshCard) ≠ none ∧ env (k + p) ≠ .raise) →
    (rowProps (db.getD (l.getD j0 0) freshCard) = none ∨ env (k + j0) = .raise) →
    (runDirty env fresh db l k table cleared attempted).committed = false ∧
    (runDirty env fresh db l k table cleared attempted).attempted
      = attempted ++ l.take (j0 + 1) := by
  intro l
  induction l with
  | nil => intro j0 k table cleared attempted hj0; cases hj0
  | cons j rest ih =>
      intro j0 k table cleared attempted hj0 hbefore hat
      rw [runDirty]
      cases j0 with
      | zero =>
          cases hrp : rowProps (db.getD j freshCard) with
          | none => exact ⟨rfl, rfl⟩
          | some props =>
              rcases hat with hrp2 | henv
              · rw [show (j :: rest).getD 0 0 = j from rfl, hrp] at hrp2
                cases hrp2
              · rw [Nat.add_zero] at henv
                rw [henv]
                exact ⟨rfl, rfl⟩
      | succ p0 =>
          have h0 := hbefore 0 (Nat.succ_pos _)
          rw [Nat.add_zero] at h0
          have hrest : ∀ p, p < p0 →
              rowProps (db.getD (rest.getD p 0) freshCard) ≠ none ∧ env (k + 1 + p) ≠ .raise := by
            intro p hp
            have := hbefore (p + 1) (Nat.succ_lt_succ hp)
            rwa [show k + (p + 1) = k + 1 + p by omega] at this
          have hat2 : rowProps (db.getD (rest.getD p0 0) freshCard) = none
              ∨ env (k + 1 + p0) = .raise := by
            rcases hat with h1 | h1
            · exact Or.inl h1
            · exact Or.inr (by rwa [show k + 1 + p0 = k + (p0 + 1) by omega])
          have hlt : p0 < rest.length := Nat.lt_of_succ_lt_succ hj0
          cases hrp : rowProps (db.getD j freshCard) with
          | none => exact absurd hrp h0.1
          | some props =>
              cases henv : env k with
              | raise => exact absurd henv h0.2
              | badResponse =>
                  obtain ⟨hc, ha⟩ := ih p0 (k + 1) table cleared (attempted ++ [j])
                    hlt hrest hat2
                  exact ⟨hc, by rw [ha, List.append_assoc]; rfl⟩
              | okResponse =>
                  obtain ⟨hc, ha⟩ := ih p0 (k + 1)
                    (upsertTable table (fresh k) (db.getD j freshCard).id_page props)
                    (cleared ++ [j]) (attempted ++ [j]) hlt hrest hat2
                  exact ⟨hc, by rw [ha, List.append_assoc]; rfl⟩

/-- Positions read off the dirty list with `getD` are injective below
its length. -/
theorem dirtyIdx_getD_inj {db : List ModelPlaceCard} {q p : Nat}
    (hq : q < (dirtyIdx db).length) (hp : p < (dirtyIdx db).length)
    (h : (dirtyIdx db).getD q 0 = (dirtyIdx db).getD p 0) : q = p := by
  rw [List.getD_eq_getElem?_getD, List.getElem?_eq_getElem hq] at h
  rw [List.getD_eq_getElem?_getD, List.getElem?_eq_getElem hp] at h
  exact (List.Nodup.getElem_inj_iff (dirtyIdx_nodup db)).mp h

/-- C1 (amended). A malformed or missing response does not abort the
push batch: when no step raises, every dirty record is attempted (in
order), and each record whose call returned a malformed response is
left completely unchanged — its flags stay set, so it remains a push
candidate. An exception while pushing one record, however, is only
contained at the pass boundary: the records after it are never
attempted and the commit is skipped, so the whole local table —
including records already pushed in that pass — keeps its flags. -/
theorem push_pass_failure_isolation :
    ∀ (env : Nat → UpsertOutcome) (fresh : Nat → String) (db : List ModelPlaceCard)
      (table : List NotionRow),
    ((∀ p, p < (dirtyIdx db).length →
        rowProps (db.getD ((dirtyIdx db).getD p 0) freshCard) ≠ none ∧ env p ≠ .raise) →
      (pushPass env fresh db table).attempted = dirtyIdx db ∧
      (∀ p, p < (dirtyIdx db).length → env p = .badResponse →
        (pushPass env fresh db table).db.get? ((dirtyIdx db).getD p 0)
          = db.get? ((dirtyIdx db).getD p 0)))
    ∧
    (∀ j0, j0 < (dirtyIdx db).length →
      (∀ p, p < j0 →
        rowProps (db.getD ((dirtyIdx db).getD p 0) freshCard) ≠ none ∧ env p ≠ .raise) →
      (rowProps (db.getD ((dirtyIdx db).getD j0 0) freshCard) = none ∨ env j0 = .raise) →
      (pushPass env fresh db table).db = db ∧
      (pushPass env fresh db table).attempted = (dirtyIdx db).take (j0 + 1)) := by
  intro env fresh db table
  constructor
  · intro h
    have h2 : ∀ p, p < (dirtyIdx db).length →
        rowProps (db.getD ((dirtyIdx db).getD p 0) freshCard) ≠ none ∧ env (0 + p) ≠ .raise := by
      intro p hp
      rw [Nat.zero_add]
      exact h p hp
    obtain ⟨ha, hc, hcl⟩ := runDirty_no_raise (dirtyIdx db) 0 table [] [] h2
    rw [pushPass]
    rw [hc]
    refine ⟨by rw [ha]; rfl, ?_⟩
    intro p hp hbad
    apply commitCleared_get?_not_mem
    intro hmem
    rcases hcl _ hmem with hin | ⟨q, hq, hgd, hok⟩
    · cases hin
    · have : q = p := dirtyIdx_getD_inj hq hp hgd
      subst this
      rw [Nat.zero_add] at hok
      rw [hok] at hbad
      cases hbad
  · intro j0 hj0 hbefore hat
    have h2 : ∀ p, p < j0 →
        rowProps (db.getD ((dirtyIdx db).getD p 0) freshCard) ≠ none ∧ env (0 + p) ≠ .raise := by
      intro p hp
      rw [Nat.zero_add]
      exact hbefore p hp
    have hat2 : rowProps (db.getD ((dirtyIdx db).getD j0 0) freshCard) = none
        ∨ env (0 + j0) = .raise := by
      rwa [Nat.zero_add]
    obtain ⟨hc, ha⟩ := runDirty_raises_at (dirtyIdx db) j0 0 table [] [] hj0 h2 hat2
    rw [pushPass, hc]
    exact ⟨rfl, by rw [ha]; rfl⟩

/-- C1 (counterexample). With two dirty records and an exception on
the first external call, only the first record is ever attempted: the
exception aborts the batch, so not every other selected record is
still attempted. -/
theorem push_pass_exception_aborts_batch_cex :
    dirtyIdx dbTwoDirty = [0, 1] ∧
    (pushPass envRaiseFirst freshPages dbTwoDirty []).attempted = [0] := by
  exact ⟨rfl, rfl⟩

/-- Witness for C1 (amended), part two, at the concrete two-record
table: the pass leaves the local table unchanged and attempts exactly
the first dirty position. -/
theorem push_pass_failure_isolation_witness :
    (pushPass envRaiseFirst freshPages dbTwoDirty []).db = dbTwoDirty ∧
    (pushPass envRaiseFirst freshPages dbTwoDirty []).attempted
      = (dirtyIdx dbTwoDirty).take 1 :=
  (push_pass_failure_isolation envRaiseFirst freshPages dbTwoDirty []).2 0 (by decide)
    (fun p hp => absurd hp (Nat.not_lt_zero p)) (Or.inr rfl)

/-- Under an all-dict environment with no formatting failures, the
push loop reaches the commit, clears exactly the listed positions, and
attempts all of them. -/
theorem runDirty_allOk {fresh : Nat → String} {db : List ModelPlaceCard} :
    ∀ (l : List Nat) (k : Nat) (table : List NotionRow) (cleared attempted : List Nat),
    (∀ i ∈ l, rowProps (db.getD i freshCard) ≠ none) →
    (runDirty allOk fresh db l k table cleared attempted).committed = true ∧
    (runDirty allOk fresh db l k table cleared attempted).cleared = cleared ++ l ∧
    (runDirty allOk fresh db l k table cleared attempted).attempted = attempted ++ l := by
  intro l
  induction l with
  | nil =>
      intro k table cleared attempted _
      exact ⟨rfl, by simp [runDirty], by simp [runDirty]⟩
  | cons j rest ih =>
      intro k table cleared attempted h
      have h0 : rowProps (db.getD j freshCard) ≠ none := h j (List.mem_cons_self _ _)
      have hrest : ∀ i ∈ rest, rowProps (db.getD i freshCard) ≠ none :=
        fun i hi => h i (List.mem_cons_of_mem _ hi)
      rw [runDirty]
      cases hrp : rowProps (db.getD j freshCard) with
      | none => exact absurd hrp h0
      | some props =>
          simp only [allOk]
          obtain ⟨hc, hcl, ha⟩ := ih (k + 1)
            (upsertTable table (fresh k) (db.getD j freshCard).id_page props)
            (cleared ++ [j]) (attempted ++ [j]) hrest
          exact ⟨hc, by rw [hcl, List.append_assoc]; rfl,
            by rw [ha, List.append_assoc]; rfl⟩

/-- After committing the flag resets at every dirty position, no
record is dirty any more. -/
theorem dirtyIdx_commitCleared (db : List ModelPlaceCard) :
    dirtyIdx (commitCleared (dirtyIdx db) db) = [] := by
  rw [dirtyIdx]
  rw [List.filter_eq_nil_iff]
  intro i hi
  rw [List.mem_range, commitCleared_length] at hi
  rw [isDirtyAt]
  by_cases hmem : i ∈ dirtyIdx db
  · rw [commitCleared_get?_mem _ _ _ (dirtyIdx_nodup db) hmem]
    cases hdb : db.get? i with
    | none => simp
    | some c => simp [clearFlags, isDirty]
  · rw [commitCleared_get?_not_mem _ _ _ hmem]
    have hnd : isDirtyAt db i = false := by
      cases hd : isDirtyAt db i
      · rfl
      · exact absurd (mem_dirtyIdx.mpr ⟨hi, hd⟩) hmem
    rw [isDirtyAt] at hnd
    rw [hnd]
    simp

/-- A pass over a table with no dirty record does nothing: no record
is attempted and both stores are unchanged, whatever the environment
does. -/
theorem pushPass_no_dirty (env : Nat → UpsertOutcome) (fresh : Nat → String)
    (db : List ModelPlaceCard) (table : List NotionRow) (h : dirtyIdx db = []) :
    pushPass env fresh db table = { db := db, table := table, attempted := [] } := by
  rw [pushPass, h]
  rfl

/-- Length accounting for the all-dict push loop: the external table
grows by exactly the number of listed records whose `id_page` matches
no pre-existing external row, provided the service's fresh ids collide
with no pushed record's `id_page`. -/
theorem runDirty_allOk_table_len {fresh : Nat → String} {db : List ModelPlaceCard} :
    ∀ (l : List Nat) (k : Nat) (table : List NotionRow) (cleared attempted : List Nat),
    (∀ i ∈ l, rowProps (db.getD i freshCard) ≠ none) →
    (∀ n i, i ∈ l → NotionValue.str (fresh n) ≠ (db.getD i freshCard).id_page) →
    (runDirty allOk fresh db l k table cleared attempted).table.length
      = table.length + (l.filter fun i =>
          !tableHasId table (db.getD i freshCard).id_page).length := by
  intro l
  induction l with
  | nil =>
      intro k table cleared attempted _ _
      simp [runDirty]
  | cons j rest ih =>
      intro k table cleared attempted h hfresh
      have h0 : rowProps (db.getD j freshCard) ≠ none := h j (List.mem_cons_self _ _)
      have hrest : ∀ i ∈ rest, rowProps (db.getD i freshCard) ≠ none :=
        fun i hi => h i (List.mem_cons_of_mem _ hi)
      have hfreshrest : ∀ n i, i ∈ rest → NotionValue.str (fresh n) ≠ (db.getD i freshCard).id_page :=
        fun n i hi => hfresh n i (List.mem_cons_of_mem _ hi)
      rw [runDirty]
      cases hrp : rowProps (db.getD j freshCard) with
      | none => exact absurd hrp h0
      | some props =>
          simp only [allOk]
          by_cases hhas : tableHasId table (db.getD j freshCard).id_page = true
          · have htab1 : upsertTable table (fresh k) (db.getD j freshCard).id_page props
                = table.map fun r => if NotionValue.str r.id = (db.getD j freshCard).id_page then
                    { r with props := props } else r := by
              rw [upsertTable, if_pos hhas]
            have IH := ih (k + 1)
              (table.map fun r => if NotionValue.str r.id = (db.getD j freshCard).id_page then
                  { r with props := props } else r)
              (cleared ++ [j]) (attempted ++ [j]) hrest hfreshrest
            have hfc : List.filter (fun i =>
                  !tableHasId (table.map fun r =>
                    if NotionValue.str r.id = (db.getD j freshCard).id_page then
                      { r with props := props } else r) (db.getD i freshCard).id_page) rest
                = List.filter (fun i => !tableHasId table (db.getD i freshCard).id_page) rest := by
              apply List.filter_congr
              intro i _
              rw [tableHasId_map_update]
            rw [htab1, IH, List.length_map, hfc, List.filter_cons_of_neg (by rw [hhas]; simp)]
          · have hhasF : tableHasId table (db.getD j freshCard).id_page = false := by
              cases hx : tableHasId table (db.getD j freshCard).id_page
              · rfl
              · exact absurd hx hhas
            have htab1 : upsertTable table (fresh k) (db.getD j freshCard).id_page props
                = table ++ [{ id := fresh k, props := props }] := by
              rw [upsertTable, hhasF]
              rfl
            have IH := ih (k + 1) (table ++ [{ id := fresh k, props := props }])
              (cleared ++ [j]) (attempted ++ [j]) hrest hfreshrest
            have hfc : List.filter (fun i =>
                  !tableHasId (table ++ [{ id := fresh k, props := props }])
                    (db.getD i freshCard).id_page) rest
                = List.filter (fun i => !tableHasId table (db.getD i freshCard).id_page) rest := by
              apply List.filter_congr
              intro i hi
              rw [tableHasId_append]
              have hd : decide (NotionValue.str (fresh k) = (db.getD i freshCard).id_page)
                  = false := decide_eq_false (hfreshrest k i hi)
              rw [hd, Bool.or_false]
            rw [htab1, IH, hfc, List.filter_cons_of_pos (by rw [hhasF]; rfl)]
            simp only [List.length_append, List.length_cons, List.length_nil]
            omega

/-- C3. Running the push pass twice in succession with no intervening
local edits yields exactly one external row per dirty record and no
duplicate create: under a well-behaved external service the first pass
clears every dirty flag and adds exactly one row per dirty record not
already joined to the external table, and the second pass — whatever
its environment — attempts nothing and changes neither store. -/
theorem push_pass_idempotent :
    ∀ (fresh : Nat → String) (db : List ModelPlaceCard) (table : List NotionRow),
    (∀ i ∈ dirtyIdx db, rowProps (db.getD i freshCard) ≠ none) →
    (∀ (env2 : Nat → UpsertOutcome) (fresh2 : Nat → String),
      pushPass env2 fresh2 (pushPass allOk fresh db table).db
          (pushPass allOk fresh db table).table
        = { db := (pushPass allOk fresh db table).db
          , table := (pushPass allOk fresh db table).table
          , attempted := [] }) ∧
    ((∀ n i, i ∈ dirtyIdx db → NotionValue.str (fresh n) ≠ (db.getD i freshCard).id_page) →
      (pushPass allOk fresh db table).table.length
        = table.length + ((dirtyIdx db).filter fun i =>
            !tableHasId table (db.getD i freshCard).id_page).length) := by
  intro fresh db table h
  obtain ⟨hc, hcl, -⟩ := runDirty_allOk (dirtyIdx db) 0 table [] [] h
  have hdb1 : (pushPass allOk fresh db table).db = commitCleared (dirtyIdx db) db := by
    rw [pushPass, hc]
    rw [hcl]
    rfl
  constructor
  · intro env2 fresh2
    apply pushPass_no_dirty
    rw [hdb1]
    exact dirtyIdx_commitCleared db
  · intro hfresh
    have := runDirty_allOk_table_len (dirtyIdx db) 0 table [] [] h hfresh
    rw [pushPass, hc]
    exact this

/-- Witness for C3 at the concrete one-record table: the first pass
creates one external row; a second pass changes nothing. -/
theorem push_pass_idempotent_witness :
    (∀ i ∈ dirtyIdx dbOneNew, rowProps (dbOneNew.getD i freshCard) ≠ none) ∧
    pushPass allOk freshPages (pushPass allOk freshPages dbOneNew []).db
        (pushPass allOk freshPages dbOneNew []).table
      = { db := (pushPass allOk freshPages dbOneNew []).db
        , table := (pushPass allOk freshPages dbOneNew []).table
        , attempted := [] } :=
  ⟨by decide,
   (push_pass_idempotent freshPages dbOneNew [] (by decide)).1 allOk freshPages⟩

end PlaceSync
